import Mathlib

/-!
Shallow embedding of the port utilities of `src/node/network/index.ts`
(`@dxkit-org/js-kit`), together with proofs about them.

The network primitive `isPortReachable(port, {host, timeout})` is an external
effect; it is modelled by a `ProbeOutcome` oracle supplied to each operation:
`ok reachable` for a probe that resolved, `err` for a probe whose call threw.
Each operation returns, besides its result, the list of ports for which a
network probe was actually attempted, so that "no I/O happened" is provable.
-/

namespace Network

/-- Outcome of one call of the external TCP probe `isPortReachable`:
either it resolved with a reachability boolean or the call threw. -/
inductive ProbeOutcome where
  | ok (reachable : Bool)
  | err
deriving DecidableEq, Repr

/-- Target state argument of `waitForPort` (`available` or `in-use`). -/
inductive TargetState where
  | available
  | inUse
deriving DecidableEq, Repr

/-- The errors thrown by the module: `PortError` messages of
`src/node/network/index.ts`, distinguished by their shape, plus the
`EnvironmentError` of `universal/utils`. -/
inductive PortError where
  | invalidPort (port : Int)
  | startGreaterThanEnd (startPort endPort : Int)
  | checkFailed (port : Int) (host : String)
  | noAvailablePort (startPort endPort : Int) (attempts : Int) (host : String)
  | timeout (port : Int) (target : TargetState) (overallTimeout : Int) (host : String)
  | environment
deriving DecidableEq, Repr

deriving instance DecidableEq for Except

/-- Result of an operation: the value it returned or the error it threw,
together with the ports for which a network probe was actually attempted,
in order. -/
structure ProbeResult (α : Type) where
  result : Except PortError α
  probed : List Int
deriving Repr

/-- Modelled from the spec: the source imports `assertNodeEnvironment` from
`universal/utils`, a module that is not part of this snapshot.  Per the
environment boundary of the spec — "invoking them outside such a runtime must
fail immediately with a distinct wrong environment error before any network
attempt is made" — it throws an environment error when the runtime is not
Node.js and does nothing otherwise. -/
def assertNodeEnvironment (isNode : Bool) : Except PortError Unit :=
  if isNode then .ok () else .error .environment

/-- Validator `validatePort` of `src/node/network/index.ts`: throws a `PortError`
unless `1 ≤ port ≤ 65535`.  (The source also rejects non-integers via
`Number.isInteger`; the domain of the model is `Int`, where that test is
vacuous.) -/
def validatePort (port : Int) : Except PortError Unit :=
  if port < 1 ∨ port > 65535 then .error (.invalidPort port) else .ok ()

/-- Probe wrapper `isPortInUse`: asserts the Node environment, validates the port, then
probes; a probe that throws is wrapped into a `checkFailed` error. -/
def isPortInUse (isNode : Bool) (port : Int) (host : String)
    (outcome : ProbeOutcome) : ProbeResult Bool :=
  match assertNodeEnvironment isNode with
  | .error e => ⟨.error e, []⟩
  | .ok _ =>
    match validatePort port with
    | .error e => ⟨.error e, []⟩
    | .ok _ =>
      match outcome with
      | .ok reachable => ⟨.ok reachable, [port]⟩
      | .err => ⟨.error (.checkFailed port host), [port]⟩

/-- Negated probe `isPortAvailable`: `!(await isPortInUse(port, options))`. -/
def isPortAvailable (isNode : Bool) (port : Int) (host : String)
    (outcome : ProbeOutcome) : ProbeResult Bool :=
  let r := isPortInUse isNode port host outcome
  ⟨Except.map (fun b => !b) r.result, r.probed⟩

/-- Options of `findAvailablePort`, with the defaults of the source. -/
structure FindPortOptions where
  startPort : Int := 3000
  endPort : Int := 65535
  maxTries : Int := 100
  host : String := "localhost"
  timeout : Int := 5000
deriving Repr

/-- The scan loop of `findAvailablePort`:
`while (currentPort <= endPort && attempts < maxTries)`, returning
`currentPort` as soon as `isPortAvailable` resolves `true`, continuing on
`false` or on a thrown error, and throwing `noAvailablePort` when the loop
exits. -/
def findLoop (isNode : Bool) (probe : Int → ProbeOutcome) (host : String)
    (startPort endPort maxTries : Int) (currentPort attempts : Int) :
    ProbeResult Int :=
  if h : currentPort ≤ endPort ∧ attempts < maxTries then
    let r := isPortAvailable isNode currentPort host (probe currentPort)
    if r.result = Except.ok true then
      ⟨.ok currentPort, r.probed⟩
    else
      let rest := findLoop isNode probe host startPort endPort maxTries
        (currentPort + 1) (attempts + 1)
      ⟨rest.result, r.probed ++ rest.probed⟩
  else
    ⟨.error (.noAvailablePort startPort endPort attempts host), []⟩
termination_by (endPort + 1 - currentPort).toNat
decreasing_by omega

/-- Scanner `findAvailablePort`: validates `startPort` and `endPort`, rejects
`startPort > endPort`, then runs the scan loop from `startPort` with the
attempt counter at `0`. -/
def findAvailablePort (isNode : Bool) (opts : FindPortOptions)
    (probe : Int → ProbeOutcome) : ProbeResult Int :=
  match validatePort opts.startPort with
  | .error e => ⟨.error e, []⟩
  | .ok _ =>
    match validatePort opts.endPort with
    | .error e => ⟨.error e, []⟩
    | .ok _ =>
      if opts.startPort > opts.endPort then
        ⟨.error (.startGreaterThanEnd opts.startPort opts.endPort), []⟩
      else
        findLoop isNode probe opts.host opts.startPort opts.endPort
          opts.maxTries opts.startPort 0

/-- Validation sweep `ports.forEach(validatePort)`: the error of the first invalid port, if
any (a thrown `PortError` aborts the `forEach`). -/
def firstValidationError (ports : List Int) : Option PortError :=
  ports.findSome? (fun p =>
    match validatePort p with
    | .error e => some e
    | .ok _ => none)

/-- JavaScript `Map.set` with integer keys, on an insertion-order
association list: an existing key keeps its position and gets the new value,
a new key is appended. -/
def mapSet (m : List (Int × Bool)) (k : Int) (v : Bool) : List (Int × Bool) :=
  match m with
  | [] => [(k, v)]
  | (k₀, v₀) :: rest =>
    if k₀ = k then (k, v) :: rest else (k₀, v₀) :: mapSet rest k v

/-- JavaScript `Map.get`: the value stored under a key, if present. -/
def mapLookup (m : List (Int × Bool)) (k : Int) : Option Bool :=
  match m with
  | [] => none
  | (k₀, v₀) :: rest => if k₀ = k then some v₀ else mapLookup rest k

/-- The per-port checks of `checkMultiplePorts` (`ports.map(async (port) =>
...)`): one check per list position, a thrown check recorded as
`{port, available: false}`.  The probe oracle is indexed by position, since
duplicate ports are probed independently. -/
def runChecks (isNode : Bool) (host : String) (probe : Nat → ProbeOutcome) :
    List Int → Nat → List ((Int × Bool) × List Int)
  | [], _ => []
  | port :: rest, i =>
    let r := isPortAvailable isNode port host (probe i)
    (match r.result with
     | .ok b => ((port, b), r.probed)
     | .error _ => ((port, false), r.probed)) ::
      runChecks isNode host probe rest (i + 1)

/-- Batch prober `checkMultiplePorts`: validates every port up front, then runs all the
per-port checks and collects their results into the map in input order. -/
def checkMultiplePorts (isNode : Bool) (ports : List Int) (host : String)
    (probe : Nat → ProbeOutcome) : ProbeResult (List (Int × Bool)) :=
  match firstValidationError ports with
  | some e => ⟨.error e, []⟩
  | none =>
    let checks := runChecks isNode host probe ports 0
    ⟨.ok (checks.foldl (fun m c => mapSet m c.1.1 c.1.2) []),
      checks.foldr (fun c acc => c.2 ++ acc) []⟩

/-- Options of `waitForPort`, with the defaults of the source. -/
structure WaitForPortOptions where
  host : String := "localhost"
  timeout : Int := 5000
  pollInterval : Int := 1000
  overallTimeout : Int := 30000
deriving Repr

/-- Decoding of the observed state: `in-use` when reachable, `available` otherwise. -/
def stateOfBool (inUse : Bool) : TargetState :=
  if inUse then .inUse else .available

/-- Result of `waitForPort`: the value returned or error thrown, the
wall-clock milliseconds elapsed since the call when it happened, and the
number of network probes attempted. -/
structure WaitOutcome where
  result : Except PortError Unit
  elapsed : Int
  probes : Nat
deriving DecidableEq, Repr

/-- The polling loop of `waitForPort`:
`while (Date.now() - startTime < overallTimeout)`.  Each iteration probes the
port (the trace gives the outcome of each probe and its duration;
an iteration that never reaches the network probe takes no time), returns as
soon as the observed state equals the target, and otherwise — also when the
probe threw — sleeps `pollInterval` and retries.  Fuel bounds the number of
iterations of the model; `none` means the fuel ran out. -/
def waitLoop (isNode : Bool) (port : Int) (target : TargetState)
    (host : String) (pollInterval overallTimeout : Int)
    (trace : Nat → ProbeOutcome × Int) :
    Nat → Int → Nat → Nat → Option WaitOutcome
  | 0, _, _, _ => none
  | fuel + 1, elapsed, attempt, probes =>
    if elapsed < overallTimeout then
      let r := isPortInUse isNode port host (trace attempt).1
      let d : Int := if r.probed = [] then 0 else (trace attempt).2
      let probesNow := probes + r.probed.length
      match r.result with
      | .ok inUse =>
        if stateOfBool inUse = target then
          some ⟨.ok (), elapsed + d, probesNow⟩
        else
          waitLoop isNode port target host pollInterval overallTimeout trace
            fuel (elapsed + d + pollInterval) (attempt + 1) probesNow
      | .error _ =>
        waitLoop isNode port target host pollInterval overallTimeout trace
          fuel (elapsed + d + pollInterval) (attempt + 1) probesNow
    else
      some ⟨.error (.timeout port target overallTimeout host), elapsed, probes⟩

/-- Watcher `waitForPort`: validates the port, then polls until the target state is
observed or the overall deadline has passed. -/
def waitForPort (isNode : Bool) (port : Int) (target : TargetState)
    (opts : WaitForPortOptions) (trace : Nat → ProbeOutcome × Int)
    (fuel : Nat) : Option WaitOutcome :=
  match validatePort port with
  | .error e => some ⟨.error e, 0, 0⟩
  | .ok _ =>
    waitLoop isNode port target opts.host opts.pollInterval
      opts.overallTimeout trace fuel 0 0 0


/-- The contiguous ascending list of ports `s, s+1, …, s+n-1`. -/
def portRange (s : Int) : Nat → List Int
  | 0 => []
  | n + 1 => s :: portRange (s + 1) n

theorem portRange_zero (s : Int) : portRange s 0 = [] := rfl

theorem portRange_succ (s : Int) (n : Nat) :
    portRange s (n + 1) = s :: portRange (s + 1) n := rfl

theorem mem_portRange (s q : Int) (n : Nat) :
    q ∈ portRange s n ↔ s ≤ q ∧ q < s + n := by
  induction n generalizing s with
  | zero => simp [portRange]
  | succ m ih =>
    rw [portRange_succ, List.mem_cons, ih (s + 1)]
    omega

theorem portRange_length (s : Int) (n : Nat) :
    (portRange s n).length = n := by
  induction n generalizing s with
  | zero => rfl
  | succ m ih => rw [portRange_succ, List.length_cons, ih (s + 1)]

theorem isPortInUse_notNode (port : Int) (host : String) (o : ProbeOutcome) :
    isPortInUse false port host o = ⟨.error .environment, []⟩ := rfl

theorem isPortAvailable_notNode (port : Int) (host : String) (o : ProbeOutcome) :
    isPortAvailable false port host o = ⟨.error .environment, []⟩ := rfl

theorem validatePort_ok (p : Int) (h1 : 1 ≤ p) (h2 : p ≤ 65535) :
    validatePort p = .ok () := by
  simp [validatePort]
  omega

theorem isPortAvailable_node (port : Int) (host : String) (o : ProbeOutcome)
    (h1 : 1 ≤ port) (h2 : port ≤ 65535) :
    isPortAvailable true port host o =
      ⟨match o with
        | .ok b => .ok (!b)
        | .err => .error (.checkFailed port host), [port]⟩ := by
  cases o <;>
    simp [isPortAvailable, isPortInUse, assertNodeEnvironment,
      validatePort_ok port h1 h2, Except.map]

theorem isPortAvailable_node_ok_true (port : Int) (host : String)
    (o : ProbeOutcome) (h1 : 1 ≤ port) (h2 : port ≤ 65535) :
    (isPortAvailable true port host o).result = Except.ok true ↔
      o = .ok false := by
  rw [isPortAvailable_node port host o h1 h2]
  cases o with
  | ok b => cases b <;> simp
  | err => simp

theorem isPortAvailable_node_probed (port : Int) (host : String)
    (o : ProbeOutcome) (h1 : 1 ≤ port) (h2 : port ≤ 65535) :
    (isPortAvailable true port host o).probed = [port] := by
  rw [isPortAvailable_node port host o h1 h2]


/-- Full characterization of the scan loop in a Node environment with a
valid upper bound: a success is the first free port of the window, an
exhaustion error reports the attempt count, and exhaustion happens exactly
when the window holds no free port.  The window length is
`max 0 (min (maxTries - attempts) (endPort + 1 - currentPort))`. -/
theorem findLoop_spec (probe : Int → ProbeOutcome) (host : String)
    (S E M : Int) (hE : E ≤ 65535) :
    ∀ (n : Nat) (c a : Int), (E + 1 - c).toNat = n → 1 ≤ c →
    (∀ p, (findLoop true probe host S E M c a).result = .ok p →
        c ≤ p ∧ p ≤ E ∧ p - c < max 0 (min (M - a) (E + 1 - c)) ∧
        probe p = .ok false ∧
        (∀ q, c ≤ q → q < p → probe q ≠ .ok false) ∧
        (findLoop true probe host S E M c a).probed =
          portRange c (p + 1 - c).toNat) ∧
    (∀ e, (findLoop true probe host S E M c a).result = .error e →
        e = .noAvailablePort S E (a + max 0 (min (M - a) (E + 1 - c))) host ∧
        (findLoop true probe host S E M c a).probed =
          portRange c (max 0 (min (M - a) (E + 1 - c))).toNat ∧
        (∀ q, c ≤ q → q < c + max 0 (min (M - a) (E + 1 - c)) →
          probe q ≠ .ok false)) ∧
    ((∀ q, c ≤ q → q < c + max 0 (min (M - a) (E + 1 - c)) →
        probe q ≠ .ok false) →
      ∃ e, (findLoop true probe host S E M c a).result = .error e) := by
  intro n
  induction n using Nat.strong_induction_on with
  | _ n ih =>
    intro c a hn hc
    by_cases hcond : c ≤ E ∧ a < M
    · have hc65 : c ≤ 65535 := by omega
      have hWpos : max 0 (min (M - a) (E + 1 - c)) =
          min (M - a) (E + 1 - c) := by omega
      have hWsucc : min (M - a) (E + 1 - c) =
          max 0 (min (M - (a + 1)) (E + 1 - (c + 1))) + 1 := by omega
      rw [findLoop]
      rw [dif_pos hcond]
      by_cases hfree : probe c = .ok false
      · rw [if_pos (by
          rw [isPortAvailable_node_ok_true c host (probe c) hc hc65]
          exact hfree)]
        refine ⟨?_, ?_, ?_⟩
        · intro p hp
          simp only at hp
          cases hp
          refine ⟨le_refl c, hcond.1, by omega, hfree, ?_, ?_⟩
          · intro q hq1 hq2
            omega
          · rw [isPortAvailable_node_probed c host (probe c) hc hc65]
            have : (c + 1 - c).toNat = 1 := by omega
            rw [this, portRange_succ, portRange_zero]
        · intro e he
          simp at he
        · intro hall
          exact absurd hfree (hall c (le_refl c) (by omega))
      · rw [if_neg (by
          rw [isPortAvailable_node_ok_true c host (probe c) hc hc65]
          exact hfree)]
        have hmeas : (E + 1 - (c + 1)).toNat < n := by omega
        obtain ⟨ihS, ihE, ihX⟩ :=
          ih _ hmeas (c + 1) (a + 1) rfl (by omega)
        have hprobed := isPortAvailable_node_probed c host (probe c) hc hc65
        refine ⟨?_, ?_, ?_⟩
        · intro p hp
          simp only at hp
          obtain ⟨h1, h2, h3, h4, h5, h6⟩ := ihS p hp
          refine ⟨by omega, h2, by omega, h4, ?_, ?_⟩
          · intro q hq1 hq2
            rcases eq_or_lt_of_le hq1 with hq | hq
            · rw [← hq]; exact hfree
            · exact h5 q (by omega) hq2
          · simp only [hprobed, h6]
            have : (p + 1 - c).toNat = (p + 1 - (c + 1)).toNat + 1 := by
              omega
            rw [this, portRange_succ]
            rfl
        · intro e he
          simp only at he
          obtain ⟨h1, h2, h3⟩ := ihE e he
          refine ⟨by rw [h1]; congr 1; omega, ?_, ?_⟩
          · simp only [hprobed, h2]
            have : (max 0 (min (M - a) (E + 1 - c))).toNat =
                (max 0 (min (M - (a + 1)) (E + 1 - (c + 1)))).toNat + 1 := by
              omega
            rw [this, portRange_succ]
            rfl
          · intro q hq1 hq2
            rcases eq_or_lt_of_le hq1 with hq | hq
            · rw [← hq]; exact hfree
            · exact h3 q (by omega) (by omega)
        · intro hall
          obtain ⟨e, he⟩ := ihX (by
            intro q hq1 hq2
            exact hall q (by omega) (by omega))
          exact ⟨e, by simp only; exact he⟩
    · have hW0 : max 0 (min (M - a) (E + 1 - c)) = 0 := by omega
      rw [findLoop, dif_neg hcond]
      refine ⟨?_, ?_, ?_⟩
      · intro p hp
        simp at hp
      · intro e he
        simp only at he
        cases he
        refine ⟨by rw [hW0]; congr 1; omega, ?_, ?_⟩
        · rw [hW0]
          rfl
        · intro q hq1 hq2
          omega
      · intro _
        exact ⟨_, rfl⟩


/-- Outside Node.js every iteration of the scan loop swallows the
environment error of `isPortAvailable`: no probe happens and the loop runs
to exhaustion. -/
theorem findLoop_notNode (probe : Int → ProbeOutcome) (host : String)
    (S E M : Int) :
    ∀ (n : Nat) (c a : Int), (E + 1 - c).toNat = n →
    findLoop false probe host S E M c a =
      ⟨.error (.noAvailablePort S E
        (a + max 0 (min (M - a) (E + 1 - c))) host), []⟩ := by
  intro n
  induction n using Nat.strong_induction_on with
  | _ n ih =>
    intro c a hn
    by_cases hcond : c ≤ E ∧ a < M
    · rw [findLoop, dif_pos hcond]
      rw [if_neg (by rw [isPortAvailable_notNode]; simp)]
      have hmeas : (E + 1 - (c + 1)).toNat < n := by omega
      rw [isPortAvailable_notNode, ih _ hmeas (c + 1) (a + 1) rfl]
      simp only [List.nil_append]
      have harith : a + 1 + max 0 (min (M - (a + 1)) (E + 1 - (c + 1))) =
          a + max 0 (min (M - a) (E + 1 - c)) := by omega
      rw [harith]
    · rw [findLoop, dif_neg hcond]
      have hW : max 0 (min (M - a) (E + 1 - c)) = 0 := by omega
      rw [hW, add_zero]

/-- A success of `isPortInUse` reports exactly the resolution of the probe. -/
theorem isPortInUse_ok (isNode : Bool) (port : Int) (host : String)
    (o : ProbeOutcome) (b : Bool)
    (h : (isPortInUse isNode port host o).result = .ok b) : o = .ok b := by
  cases isNode <;> cases o <;>
    simp_all [isPortInUse, assertNodeEnvironment, validatePort] <;>
    split at h <;> simp_all

/-- The polling loop returns success only when the probe of some iteration
directly observed the target state. -/
theorem waitLoop_ok (isNode : Bool) (port : Int) (target : TargetState)
    (host : String) (pi ot : Int) (trace : Nat → ProbeOutcome × Int) :
    ∀ (fuel : Nat) (elapsed : Int) (attempt probes : Nat)
      (res : WaitOutcome),
    waitLoop isNode port target host pi ot trace fuel elapsed attempt probes =
      some res →
    res.result = .ok () →
    ∃ i b, (trace i).1 = .ok b ∧ stateOfBool b = target := by
  intro fuel
  induction fuel with
  | zero => intro elapsed attempt probes res h; simp [waitLoop] at h
  | succ m ih =>
    intro elapsed attempt probes res h hok
    rw [waitLoop] at h
    by_cases hd : elapsed < ot
    · rw [if_pos hd] at h
      simp only at h
      rcases hr : (isPortInUse isNode port host (trace attempt).1).result with
        e | inUse
      · rw [hr] at h
        exact ih _ _ _ _ h hok
      · rw [hr] at h
        by_cases hs : stateOfBool inUse = target
        · exact ⟨attempt, inUse, isPortInUse_ok _ _ _ _ _ hr, hs⟩
        · simp only [if_neg hs] at h
          exact ih _ _ _ _ h hok
    · rw [if_neg hd] at h
      cases h
      simp at hok


/-- Temporal bounds of the polling loop: an error it returns is the timeout
error, raised at an elapsed time of at least `overallTimeout` and — when
every probe duration is within the per-probe timeout — at most
`overallTimeout + probe timeout + pollInterval` (the deadline is only
checked before each poll). -/
theorem waitLoop_timeout (isNode : Bool) (port : Int) (target : TargetState)
    (host : String) (pi ot tm : Int) (trace : Nat → ProbeOutcome × Int)
    (hpi : 0 ≤ pi) (htm : 0 ≤ tm)
    (hdur : ∀ i, 0 ≤ (trace i).2 ∧ (trace i).2 ≤ tm) :
    ∀ (fuel : Nat) (elapsed : Int) (attempt probes : Nat)
      (res : WaitOutcome),
    elapsed ≤ ot + tm + pi →
    waitLoop isNode port target host pi ot trace fuel elapsed attempt probes =
      some res →
    ∀ e, res.result = .error e →
      e = .timeout port target ot host ∧
      ot ≤ res.elapsed ∧ res.elapsed ≤ ot + tm + pi := by
  intro fuel
  induction fuel with
  | zero => intro elapsed attempt probes res _ h; simp [waitLoop] at h
  | succ m ih =>
    intro elapsed attempt probes res hbound h e he
    rw [waitLoop] at h
    by_cases hd : elapsed < ot
    · rw [if_pos hd] at h
      simp only at h
      have hdle : (0 : Int) ≤
            (if (isPortInUse isNode port host (trace attempt).1).probed = []
              then 0 else (trace attempt).2) ∧
          (if (isPortInUse isNode port host (trace attempt).1).probed = []
              then 0 else (trace attempt).2) ≤ tm := by
        split
        · exact ⟨le_refl 0, htm⟩
        · exact hdur attempt
      rcases hr : (isPortInUse isNode port host (trace attempt).1).result with
        e₀ | inUse
      · rw [hr] at h
        exact ih _ _ _ _ (by omega) h e he
      · rw [hr] at h
        by_cases hs : stateOfBool inUse = target
        · simp only [if_pos hs] at h
          cases h
          simp at he
        · simp only [if_neg hs] at h
          exact ih _ _ _ _ (by omega) h e he
    · rw [if_neg hd] at h
      cases h
      cases he
      refine ⟨rfl, ?_, ?_⟩
      · show ot ≤ elapsed
        omega
      · show elapsed ≤ ot + tm + pi
        exact hbound

/-- Outside Node.js the polling loop swallows the environment error of every
iteration: it never probes and, when the deadline passes, throws the timeout
error. -/
theorem waitLoop_notNode (port : Int) (target : TargetState) (host : String)
    (pi ot : Int) (trace : Nat → ProbeOutcome × Int) :
    ∀ (fuel : Nat) (elapsed : Int) (attempt probes : Nat)
      (res : WaitOutcome),
    waitLoop false port target host pi ot trace fuel elapsed attempt probes =
      some res →
    res.result = .error (.timeout port target ot host) ∧
      res.probes = probes := by
  intro fuel
  induction fuel with
  | zero => intro elapsed attempt probes res h; simp [waitLoop] at h
  | succ m ih =>
    intro elapsed attempt probes res h
    rw [waitLoop] at h
    by_cases hd : elapsed < ot
    · rw [if_pos hd] at h
      simp only [isPortInUse_notNode, List.length_nil, Nat.add_zero] at h
      exact ih _ _ _ _ h
    · rw [if_neg hd] at h
      cases h
      exact ⟨rfl, rfl⟩


theorem mapLookup_mapSet_self (m : List (Int × Bool)) (k : Int) (v : Bool) :
    mapLookup (mapSet m k v) k = some v := by
  induction m with
  | nil => simp [mapSet, mapLookup]
  | cons hd tl ih =>
    obtain ⟨k₀, v₀⟩ := hd
    by_cases hk : k₀ = k
    · simp [mapSet, mapLookup, hk]
    · simp [mapSet, mapLookup, hk, ih]

theorem mapLookup_mapSet_ne (m : List (Int × Bool)) (k : Int) (v : Bool)
    (a : Int) (h : k ≠ a) :
    mapLookup (mapSet m k v) a = mapLookup m a := by
  induction m with
  | nil => simp [mapSet, mapLookup, h]
  | cons hd tl ih =>
    obtain ⟨k₀, v₀⟩ := hd
    by_cases hk : k₀ = k
    · subst hk
      simp [mapSet, mapLookup, h, ih]
    · by_cases ha : k₀ = a <;>
        simp [mapSet, mapLookup, hk, ha, Ne.symm h, ih]

theorem mem_keys_mapSet (m : List (Int × Bool)) (k : Int) (v : Bool)
    (a : Int) :
    a ∈ (mapSet m k v).map Prod.fst ↔ a ∈ m.map Prod.fst ∨ a = k := by
  induction m with
  | nil => simp [mapSet]
  | cons hd tl ih =>
    obtain ⟨k₀, v₀⟩ := hd
    by_cases hk : k₀ = k
    · subst hk
      simp [mapSet]
      tauto
    · simp [mapSet, hk, ih]
      tauto

theorem nodup_keys_mapSet (m : List (Int × Bool)) (k : Int) (v : Bool)
    (h : (m.map Prod.fst).Nodup) :
    ((mapSet m k v).map Prod.fst).Nodup := by
  induction m with
  | nil => simp [mapSet]
  | cons hd tl ih =>
    obtain ⟨k₀, v₀⟩ := hd
    simp only [List.map_cons, List.nodup_cons] at h
    by_cases hk : k₀ = k
    · subst hk
      simpa [mapSet] using h
    · simp only [mapSet, if_neg hk, List.map_cons, List.nodup_cons]
      refine ⟨?_, ih h.2⟩
      rw [mem_keys_mapSet]
      push_neg
      exact ⟨h.1, hk⟩

theorem mem_keys_lookup (m : List (Int × Bool)) (a : Int)
    (h : a ∈ m.map Prod.fst) : ∃ b, mapLookup m a = some b := by
  induction m with
  | nil => simp at h
  | cons hd tl ih =>
    obtain ⟨k₀, v₀⟩ := hd
    by_cases hk : k₀ = a
    · exact ⟨v₀, by simp [mapLookup, hk]⟩
    · simp only [List.map_cons, List.mem_cons] at h
      rcases h with h | h
      · exact absurd h.symm hk
      · simpa [mapLookup, hk] using ih h

theorem foldl_mapSet_mem (l : List ((Int × Bool) × List Int)) :
    ∀ (m : List (Int × Bool)) (a : Int),
    (a ∈ (l.foldl (fun m c => mapSet m c.1.1 c.1.2) m).map Prod.fst ↔
      a ∈ m.map Prod.fst ∨ a ∈ l.map (fun c => c.1.1)) := by
  induction l with
  | nil => simp
  | cons hd tl ih =>
    intro m a
    simp only [List.foldl_cons, List.map_cons, List.mem_cons]
    rw [ih, mem_keys_mapSet]
    tauto

theorem foldl_mapSet_nodup (l : List ((Int × Bool) × List Int)) :
    ∀ (m : List (Int × Bool)), (m.map Prod.fst).Nodup →
    ((l.foldl (fun m c => mapSet m c.1.1 c.1.2) m).map Prod.fst).Nodup := by
  induction l with
  | nil => intro m h; simpa using h
  | cons hd tl ih =>
    intro m h
    exact ih _ (nodup_keys_mapSet m hd.1.1 hd.1.2 h)

theorem foldl_mapSet_false (l : List ((Int × Bool) × List Int)) (p : Int) :
    ∀ (m : List (Int × Bool)),
    (∀ c ∈ l, c.1.1 = p → c.1.2 = false) →
    (p ∈ l.map (fun c => c.1.1) ∨ mapLookup m p = some false) →
    mapLookup (l.foldl (fun m c => mapSet m c.1.1 c.1.2) m) p =
      some false := by
  induction l with
  | nil =>
    intro m _ hm
    rcases hm with hm | hm
    · simp at hm
    · simpa using hm
  | cons hd tl ih =>
    intro m hall hm
    simp only [List.foldl_cons]
    by_cases hp : hd.1.1 = p
    · have hv : hd.1.2 = false := hall hd (List.mem_cons_self hd tl) hp
      refine ih _ (fun c hc => hall c (List.mem_cons_of_mem hd hc)) (Or.inr ?_)
      rw [hp, hv]
      exact mapLookup_mapSet_self m p false
    · refine ih _ (fun c hc => hall c (List.mem_cons_of_mem hd hc)) ?_
      rcases hm with hm | hm
      · simp only [List.map_cons, List.mem_cons] at hm
        rcases hm with hm | hm
        · exact absurd hm.symm hp
        · exact Or.inl hm
      · exact Or.inr (by rw [mapLookup_mapSet_ne m hd.1.1 hd.1.2 p hp]; exact hm)


theorem runChecks_keys (isNode : Bool) (host : String)
    (probe : Nat → ProbeOutcome) :
    ∀ (ports : List Int) (i : Nat),
    (runChecks isNode host probe ports i).map (fun c => c.1.1) = ports := by
  intro ports
  induction ports with
  | nil => intro i; rfl
  | cons q rest ih =>
    intro i
    rw [runChecks, List.map_cons, ih (i + 1)]
    congr 1
    split <;> rfl

/-- An erroring probe can never make `isPortInUse` resolve. -/
theorem isPortInUse_err (isNode : Bool) (port : Int) (host : String)
    (b : Bool) (h : (isPortInUse isNode port host .err).result = .ok b) :
    False := by
  cases isNode
  · simp [isPortInUse, assertNodeEnvironment] at h
  · by_cases hv : port < 1 ∨ port > 65535 <;>
      simp [isPortInUse, assertNodeEnvironment, validatePort, hv] at h

/-- An erroring probe can never make `isPortAvailable` resolve. -/
theorem isPortAvailable_err (isNode : Bool) (port : Int) (host : String)
    (b : Bool) (h : (isPortAvailable isNode port host .err).result = .ok b) :
    False := by
  simp only [isPortAvailable, Except.map] at h
  rcases hr : (isPortInUse isNode port host .err).result with e | b₀
  · rw [hr] at h
    simp at h
  · exact isPortInUse_err isNode port host b₀ hr

/-- If every position of the batch holding port `p` errs, every check of
`p` records `false`. -/
theorem runChecks_err_false (host : String) (probe : Nat → ProbeOutcome)
    (p : Int) :
    ∀ (ports : List Int) (i₀ : Nat),
    (∀ j, ports.get? j = some p → probe (i₀ + j) = .err) →
    ∀ c ∈ runChecks true host probe ports i₀, c.1.1 = p → c.1.2 = false := by
  intro ports
  induction ports with
  | nil => intro i₀ _ c hc; simp [runChecks] at hc
  | cons q rest ih =>
    intro i₀ hall c hc hkey
    rw [runChecks] at hc
    simp only [List.mem_cons] at hc
    rcases hc with hc | hc
    · subst hc
      rcases hr : (isPortAvailable true q host (probe i₀)).result with e | b
      · simp only [hr] at hkey ⊢
      · simp only [hr] at hkey ⊢
        have hq : q = p := by simpa [hr] using hkey
        have hprobe : probe i₀ = .err := by
          have := hall 0 (by simpa using hq.symm ▸ rfl)
          simpa using this
        rw [hq, hprobe] at hr
        exact absurd hr (fun hh => isPortAvailable_err true p host b hh)
    · refine ih (i₀ + 1) ?_ c hc hkey
      intro j hj
      have := hall (j + 1) (by simpa using hj)
      have harith : i₀ + (j + 1) = i₀ + 1 + j := by omega
      rwa [harith] at this

/-- Outside Node.js every batch check swallows the environment error: no
probe happens and every port is recorded as unavailable. -/
theorem runChecks_notNode (host : String) (probe : Nat → ProbeOutcome) :
    ∀ (ports : List Int) (i : Nat),
    runChecks false host probe ports i =
      ports.map (fun p => ((p, false), [])) := by
  intro ports
  induction ports with
  | nil => intro i; rfl
  | cons q rest ih =>
    intro i
    rw [runChecks, ih (i + 1)]
    rfl

theorem firstValidationError_none (ports : List Int)
    (h : ∀ p ∈ ports, 1 ≤ p ∧ p ≤ 65535) :
    firstValidationError ports = none := by
  induction ports with
  | nil => rfl
  | cons q rest ih =>
    have hq := h q (List.mem_cons_self q rest)
    simp only [firstValidationError, List.findSome?_cons]
    rw [validatePort_ok q hq.1 hq.2]
    exact ih (fun p hp => h p (List.mem_cons_of_mem q hp))

theorem firstValidationError_some (ports : List Int) (p : Int)
    (hp : p ∈ ports) (hbad : ¬(1 ≤ p ∧ p ≤ 65535)) :
    ∃ q, ¬(1 ≤ q ∧ q ≤ 65535) ∧ q ∈ ports ∧
      firstValidationError ports = some (.invalidPort q) := by
  induction ports with
  | nil => simp at hp
  | cons r rest ih =>
    by_cases hr : 1 ≤ r ∧ r ≤ 65535
    · have hpr : p ∈ rest := by
        rcases List.mem_cons.mp hp with h | h
        · exact absurd (h ▸ hr) hbad
        · exact h
      obtain ⟨q, hq1, hq2, hq3⟩ := ih hpr
      refine ⟨q, hq1, List.mem_cons_of_mem r hq2, ?_⟩
      simp only [firstValidationError, List.findSome?_cons]
      rw [validatePort_ok r hr.1 hr.2]
      exact hq3
    · refine ⟨r, hr, List.mem_cons_self r rest, ?_⟩
      simp only [firstValidationError, List.findSome?_cons]
      have : validatePort r = .error (.invalidPort r) := by
        simp only [validatePort]
        rw [if_pos (by omega)]
      rw [this]


theorem validatePort_bad (p : Int) (h : ¬(1 ≤ p ∧ p ≤ 65535)) :
    validatePort p = .error (.invalidPort p) := by
  simp only [validatePort]
  rw [if_pos (by omega)]

/-- With valid bounds the wrapper reduces to the scan loop. -/
theorem findAvailablePort_eq_loop (isNode : Bool) (opts : FindPortOptions)
    (probe : Int → ProbeOutcome) (h1 : 1 ≤ opts.startPort)
    (h2 : opts.startPort ≤ opts.endPort) (h3 : opts.endPort ≤ 65535) :
    findAvailablePort isNode opts probe =
      findLoop isNode probe opts.host opts.startPort opts.endPort
        opts.maxTries opts.startPort 0 := by
  rw [findAvailablePort, validatePort_ok opts.startPort h1 (by omega),
    validatePort_ok opts.endPort (by omega) h3, if_neg (by omega)]

/-- C9: the port validator accepts exactly the integers `1 ≤ p ≤ 65535`;
every other integer is rejected with the validation error naming it. -/
theorem validatePort_range (p : Int) :
    (validatePort p = .ok () ↔ 1 ≤ p ∧ p ≤ 65535) ∧
    (validatePort p = .ok () ∨ validatePort p = .error (.invalidPort p)) := by
  by_cases hc : 1 ≤ p ∧ p ≤ 65535
  · refine ⟨⟨fun _ => hc, fun _ => validatePort_ok p hc.1 hc.2⟩, ?_⟩
    exact Or.inl (validatePort_ok p hc.1 hc.2)
  · rw [validatePort_bad p hc]
    refine ⟨⟨fun h => by simp at h, fun h => absurd h hc⟩, Or.inr rfl⟩

/-- C8: whenever the probe resolves, `isPortAvailable` answers exactly the
boolean negation of `isPortInUse` for the same port, host and outcome. -/
theorem isPortAvailable_neg_isPortInUse (isNode : Bool) (port : Int)
    (host : String) (b : Bool) :
    (∀ r, (isPortInUse isNode port host (.ok b)).result = .ok r →
      (isPortAvailable isNode port host (.ok b)).result = .ok (!r)) ∧
    (∀ r, (isPortAvailable isNode port host (.ok b)).result = .ok r →
      (isPortInUse isNode port host (.ok b)).result = .ok (!r)) := by
  constructor
  · intro r h
    simp only [isPortAvailable, h, Except.map]
  · intro r h
    simp only [isPortAvailable, Except.map] at h
    rcases hr : (isPortInUse isNode port host (.ok b)).result with e | r₀
    · rw [hr] at h
      simp at h
    · rw [hr] at h
      simp only [Except.ok.injEq] at h
      rw [← h]
      simp

/-- Witness for C8 at port 3000 with a probe that resolved `reachable`. -/
theorem isPortAvailable_neg_isPortInUse_witness :
    (isPortInUse true 3000 "localhost" (.ok true)).result = .ok true ∧
    (isPortAvailable true 3000 "localhost" (.ok true)).result = .ok false := by
  refine ⟨rfl, ?_⟩
  have h :=
    (isPortAvailable_neg_isPortInUse true 3000 "localhost" true).1 true rfl
  simpa using h


/-- C3: a successful scan returns the first port observed free; the port is
inside the requested range and the ports probed are exactly the contiguous
ascending run from `startPort` to the returned port — the cursor advances by
1 on every attempt, erroring probes included. -/
theorem findAvailablePort_first_free (opts : FindPortOptions)
    (probe : Int → ProbeOutcome) (p : Int)
    (h1 : 1 ≤ opts.startPort) (h2 : opts.startPort ≤ opts.endPort)
    (h3 : opts.endPort ≤ 65535)
    (hp : (findAvailablePort true opts probe).result = .ok p) :
    opts.startPort ≤ p ∧ p ≤ opts.endPort ∧
    probe p = .ok false ∧
    (∀ q, opts.startPort ≤ q → q < p → probe q ≠ .ok false) ∧
    (findAvailablePort true opts probe).probed =
      portRange opts.startPort (p + 1 - opts.startPort).toNat := by
  rw [findAvailablePort_eq_loop true opts probe h1 h2 h3] at hp ⊢
  obtain ⟨hS, _, _⟩ :=
    findLoop_spec probe opts.host opts.startPort opts.endPort opts.maxTries
      h3 _ opts.startPort 0 rfl h1
  obtain ⟨g1, g2, _, g4, g5, g6⟩ := hS p hp
  exact ⟨g1, g2, g4, g5, g6⟩

/-- Witness for C3: scanning 3000–3005 over a probe field where 3000 is
occupied, the probe of 3001 errors, and 3002 is free. -/
theorem findAvailablePort_first_free_witness :
    (1 : Int) ≤ 3000 ∧ (3000 : Int) ≤ 3005 ∧ (3005 : Int) ≤ 65535 ∧
    (findAvailablePort true { startPort := 3000, endPort := 3005 }
      (fun q => if q = 3002 then .ok false
        else if q = 3001 then .err else .ok true)).result = .ok 3002 ∧
    ((3000 : Int) ≤ 3002 ∧ (3002 : Int) ≤ 3005 ∧
      (fun q => if q = 3002 then ProbeOutcome.ok false
        else if q = 3001 then .err else .ok true) 3002 = .ok false ∧
      (∀ q, (3000 : Int) ≤ q → q < 3002 →
        (fun q => if q = 3002 then ProbeOutcome.ok false
          else if q = 3001 then .err else .ok true) q ≠ .ok false) ∧
      (findAvailablePort true { startPort := 3000, endPort := 3005 }
        (fun q => if q = 3002 then .ok false
          else if q = 3001 then .err else .ok true)).probed =
        portRange 3000 ((3002 : Int) + 1 - 3000).toNat) := by
  have heval : (findAvailablePort true { startPort := 3000, endPort := 3005 }
      (fun q => if q = 3002 then ProbeOutcome.ok false
        else if q = 3001 then .err else .ok true)).result = .ok 3002 := by
    simp [findAvailablePort, findLoop, isPortAvailable, isPortInUse,
      assertNodeEnvironment, validatePort, Except.map]
  refine ⟨by norm_num, by norm_num, by norm_num, heval, ?_⟩
  exact findAvailablePort_first_free
    { startPort := 3000, endPort := 3005 }
    (fun q => if q = 3002 then .ok false
      else if q = 3001 then .err else .ok true) 3002
    (by norm_num) (by norm_num) (by norm_num) heval


/-- C4: with valid bounds, the scan fails exactly when no port of the probe
window (cut short by `maxTries` or by `endPort`, whichever comes first) was
observed free; the error reports the searched range and the attempt count,
which also equals the number of ports probed. -/
theorem findAvailablePort_exhaustion (opts : FindPortOptions)
    (probe : Int → ProbeOutcome)
    (h1 : 1 ≤ opts.startPort) (h2 : opts.startPort ≤ opts.endPort)
    (h3 : opts.endPort ≤ 65535) :
    ((∃ e, (findAvailablePort true opts probe).result = .error e) ↔
      ∀ q, opts.startPort ≤ q →
        q < opts.startPort +
          max 0 (min opts.maxTries (opts.endPort + 1 - opts.startPort)) →
        probe q ≠ .ok false) ∧
    (∀ e, (findAvailablePort true opts probe).result = .error e →
      e = .noAvailablePort opts.startPort opts.endPort
        (max 0 (min opts.maxTries (opts.endPort + 1 - opts.startPort)))
        opts.host ∧
      ((findAvailablePort true opts probe).probed.length : Int) =
        max 0 (min opts.maxTries (opts.endPort + 1 - opts.startPort))) := by
  rw [findAvailablePort_eq_loop true opts probe h1 h2 h3]
  obtain ⟨_, hE, hX⟩ :=
    findLoop_spec probe opts.host opts.startPort opts.endPort opts.maxTries
      h3 _ opts.startPort 0 rfl h1
  simp only [sub_zero, zero_add] at hE hX
  refine ⟨⟨?_, ?_⟩, ?_⟩
  · rintro ⟨e, he⟩
    exact (hE e he).2.2
  · exact hX
  · intro e he
    obtain ⟨g1, g2, _⟩ := hE e he
    refine ⟨g1, ?_⟩
    rw [g2, portRange_length]
    omega

/-- Witness for C4: `maxTries = 1` on the occupied range 3000–3002 probes
exactly one port and reports one attempt. -/
theorem findAvailablePort_exhaustion_witness :
    (1 : Int) ≤ 3000 ∧ (3000 : Int) ≤ 3002 ∧ (3002 : Int) ≤ 65535 ∧
    (((∃ e, (findAvailablePort true
        { startPort := 3000, endPort := 3002, maxTries := 1 }
        (fun _ => .ok true)).result = .error e) ↔
      ∀ q, (3000 : Int) ≤ q →
        q < 3000 + max 0 (min 1 ((3002 : Int) + 1 - 3000)) →
        (fun _ => ProbeOutcome.ok true) q ≠ .ok false) ∧
    (∀ e, (findAvailablePort true
        { startPort := 3000, endPort := 3002, maxTries := 1 }
        (fun _ => .ok true)).result = .error e →
      e = .noAvailablePort 3000 3002 (max 0 (min 1 ((3002 : Int) + 1 - 3000)))
        "localhost" ∧
      ((findAvailablePort true
        { startPort := 3000, endPort := 3002, maxTries := 1 }
        (fun _ => .ok true)).probed.length : Int) =
        max 0 (min 1 ((3002 : Int) + 1 - 3000)))) := by
  refine ⟨by norm_num, by norm_num, by norm_num, ?_⟩
  exact findAvailablePort_exhaustion
    { startPort := 3000, endPort := 3002, maxTries := 1 }
    (fun _ => .ok true) (by norm_num) (by norm_num) (by norm_num)

/-- C10: the loop invariant `currentPort = startPort + attempts` observed at
the boundary: a returned port is at most `startPort + maxTries - 1`, and the
attempt count reported by the exhaustion error equals the number of ports
probed. -/
theorem findAvailablePort_cursor (opts : FindPortOptions)
    (probe : Int → ProbeOutcome)
    (h1 : 1 ≤ opts.startPort) (h2 : opts.startPort ≤ opts.endPort)
    (h3 : opts.endPort ≤ 65535) :
    (∀ p, (findAvailablePort true opts probe).result = .ok p →
      p ≤ opts.startPort + opts.maxTries - 1 ∧
      ((findAvailablePort true opts probe).probed.length : Int) =
        p + 1 - opts.startPort) ∧
    (∀ e, (findAvailablePort true opts probe).result = .error e →
      e = .noAvailablePort opts.startPort opts.endPort
        ((findAvailablePort true opts probe).probed.length : Int)
        opts.host) := by
  rw [findAvailablePort_eq_loop true opts probe h1 h2 h3]
  obtain ⟨hS, hE, _⟩ :=
    findLoop_spec probe opts.host opts.startPort opts.endPort opts.maxTries
      h3 _ opts.startPort 0 rfl h1
  simp only [sub_zero, zero_add] at hS hE
  constructor
  · intro p hp
    obtain ⟨g1, g2, g3, _, _, g6⟩ := hS p hp
    refine ⟨by omega, ?_⟩
    rw [g6, portRange_length]
    omega
  · intro e he
    obtain ⟨g1, g2, _⟩ := hE e he
    rw [g2, portRange_length]
    have harith :
        (((max 0 (min opts.maxTries
            (opts.endPort + 1 - opts.startPort))).toNat : Int)) =
          max 0 (min opts.maxTries (opts.endPort + 1 - opts.startPort)) := by
      omega
    rw [harith]
    exact g1

/-- Witness for C10: scanning from 3000 with `maxTries = 3`, where 3000 is
occupied and 3001 free: two ports probed, result `3001 ≤ 3000 + 3 - 1`. -/
theorem findAvailablePort_cursor_witness :
    (1 : Int) ≤ 3000 ∧ (3000 : Int) ≤ 3005 ∧ (3005 : Int) ≤ 65535 ∧
    (findAvailablePort true
      { startPort := 3000, endPort := 3005, maxTries := 3 }
      (fun q => if q = 3000 then .ok true else .ok false)).result =
        .ok 3001 ∧
    ((3001 : Int) ≤ 3000 + 3 - 1 ∧
      ((findAvailablePort true
        { startPort := 3000, endPort := 3005, maxTries := 3 }
        (fun q => if q = 3000 then .ok true else .ok false)).probed.length :
          Int) = 3001 + 1 - 3000) := by
  have heval : (findAvailablePort true
      { startPort := 3000, endPort := 3005, maxTries := 3 }
      (fun q => if q = 3000 then ProbeOutcome.ok true else .ok false)).result =
        .ok 3001 := by
    simp [findAvailablePort, findLoop, isPortAvailable, isPortInUse,
      assertNodeEnvironment, validatePort, Except.map]
  refine ⟨by norm_num, by norm_num, by norm_num, heval, ?_⟩
  exact (findAvailablePort_cursor
    { startPort := 3000, endPort := 3005, maxTries := 3 }
    (fun q => if q = 3000 then .ok true else .ok false)
    (by norm_num) (by norm_num) (by norm_num)).1 3001 heval


/-- C5: `waitForPort` succeeds only when an in-loop probe directly observed
the target state; otherwise the error thrown is the timeout error naming the
port and target state, raised no earlier than `overallTimeout` elapsed and —
probe durations being bounded by the per-probe timeout — no later than
`overallTimeout + pollInterval + timeout`. -/
theorem waitForPort_temporal (port : Int) (target : TargetState)
    (opts : WaitForPortOptions) (trace : Nat → ProbeOutcome × Int)
    (fuel : Nat) (res : WaitOutcome)
    (hv1 : 1 ≤ port) (hv2 : port ≤ 65535)
    (hot : 0 ≤ opts.overallTimeout) (hpi : 0 ≤ opts.pollInterval)
    (htm : 0 ≤ opts.timeout)
    (hdur : ∀ i, 0 ≤ (trace i).2 ∧ (trace i).2 ≤ opts.timeout)
    (hres : waitForPort true port target opts trace fuel = some res) :
    (res.result = .ok () →
      ∃ i b, (trace i).1 = .ok b ∧ stateOfBool b = target) ∧
    (∀ e, res.result = .error e →
      e = .timeout port target opts.overallTimeout opts.host ∧
      opts.overallTimeout ≤ res.elapsed ∧
      res.elapsed ≤ opts.overallTimeout + opts.pollInterval + opts.timeout) := by
  rw [waitForPort, validatePort_ok port hv1 hv2] at hres
  constructor
  · exact waitLoop_ok true port target opts.host opts.pollInterval
      opts.overallTimeout trace fuel 0 0 0 res hres
  · intro e he
    have hb := waitLoop_timeout true port target opts.host opts.pollInterval
      opts.overallTimeout opts.timeout trace hpi htm hdur fuel 0 0 0 res
      (by omega) hres e he
    exact ⟨hb.1, hb.2.1, by omega⟩

/-- Witness for C5: polling port 3000 for availability with a 250 ms
deadline, 50 ms poll interval and 100 ms probes against a port that never
frees up times out at 300 ms elapsed, within the stated bounds. -/
theorem waitForPort_temporal_witness :
    waitForPort true 3000 .available
        { timeout := 100, pollInterval := 50, overallTimeout := 250 }
        (fun _ => (.ok true, 100)) 5 =
      some ⟨.error (.timeout 3000 .available 250 "localhost"), 300, 2⟩ ∧
    ((PortError.timeout 3000 .available 250 "localhost") =
        .timeout 3000 .available 250 "localhost" ∧
      (250 : Int) ≤ 300 ∧ (300 : Int) ≤ 250 + 50 + 100) := by
  refine ⟨rfl, ?_⟩
  exact (waitForPort_temporal 3000 .available
    { timeout := 100, pollInterval := 50, overallTimeout := 250 }
    (fun _ => (.ok true, 100)) 5
    ⟨.error (.timeout 3000 .available 250 "localhost"), 300, 2⟩
    (by norm_num) (by norm_num) (by norm_num) (by norm_num) (by norm_num)
    (fun i => ⟨by norm_num, by norm_num⟩) rfl).2
    (.timeout 3000 .available 250 "localhost") rfl

/-- C6: the batch prober validates every port before any probe and any
invalid port rejects the whole batch with no probe attempted; once probing
begins the batch always resolves, every input port gets an entry, and a port
all of whose probes errored is recorded as unavailable rather than
propagating its error. -/
theorem checkMultiplePorts_isolation :
    (∀ (isNode : Bool) (ports : List Int) (host : String)
        (probe : Nat → ProbeOutcome) (p : Int),
      p ∈ ports → ¬(1 ≤ p ∧ p ≤ 65535) →
      ∃ q, ¬(1 ≤ q ∧ q ≤ 65535) ∧ q ∈ ports ∧
        checkMultiplePorts isNode ports host probe =
          ⟨.error (.invalidPort q), []⟩) ∧
    (∀ (ports : List Int) (host : String) (probe : Nat → ProbeOutcome),
      (∀ p ∈ ports, 1 ≤ p ∧ p ≤ 65535) →
      ∃ m, (checkMultiplePorts true ports host probe).result = .ok m ∧
        (∀ p ∈ ports, ∃ b, mapLookup m p = some b) ∧
        (∀ p ∈ ports, (∀ j, ports.get? j = some p → probe j = .err) →
          mapLookup m p = some false)) := by
  constructor
  · intro isNode ports host probe p hp hbad
    obtain ⟨q, hq1, hq2, hq3⟩ := firstValidationError_some ports p hp hbad
    refine ⟨q, hq1, hq2, ?_⟩
    rw [checkMultiplePorts, hq3]
  · intro ports host probe hv
    refine ⟨(runChecks true host probe ports 0).foldl
      (fun m c => mapSet m c.1.1 c.1.2) [], ?_, ?_, ?_⟩
    · rw [checkMultiplePorts, firstValidationError_none ports hv]
    · intro p hp
      apply mem_keys_lookup
      rw [foldl_mapSet_mem]
      refine Or.inr ?_
      have hkeys := runChecks_keys true host probe ports 0
      rw [hkeys]
      exact hp
    · intro p hp herr
      apply foldl_mapSet_false
      · intro c hc
        refine runChecks_err_false host probe p ports 0 ?_ c hc
        intro j hj
        simpa using herr j hj
      · refine Or.inl ?_
        rw [runChecks_keys true host probe ports 0]
        exact hp

/-- Witness for C6 at the batch `[70000, 3000]` (invalid) and at `[3000]`
whose only probe errors. -/
theorem checkMultiplePorts_isolation_witness :
    ((70000 : Int) ∈ [(70000 : Int), 3000] ∧ ¬((1 : Int) ≤ 70000 ∧ (70000 : Int) ≤ 65535) ∧
      (∃ q, ¬((1 : Int) ≤ q ∧ q ≤ 65535) ∧ q ∈ [(70000 : Int), 3000] ∧
        checkMultiplePorts true [70000, 3000] "localhost" (fun _ => .ok true) =
          ⟨.error (.invalidPort q), []⟩)) ∧
    ((∀ p ∈ [(3000 : Int)], 1 ≤ p ∧ p ≤ 65535) ∧
      ∃ m, (checkMultiplePorts true [3000] "localhost"
          (fun _ => ProbeOutcome.err)).result = .ok m ∧
        (∀ p ∈ [(3000 : Int)], ∃ b, mapLookup m p = some b) ∧
        (∀ p ∈ [(3000 : Int)],
          (∀ j, [(3000 : Int)].get? j = some p →
            (fun _ => ProbeOutcome.err) j = .err) →
          mapLookup m p = some false)) := by
  constructor
  · refine ⟨by norm_num, by norm_num, ?_⟩
    exact checkMultiplePorts_isolation.1 true [70000, 3000] "localhost"
      (fun _ => .ok true) 70000 (by norm_num) (by norm_num)
  · refine ⟨by norm_num, ?_⟩
    exact checkMultiplePorts_isolation.2 [3000] "localhost"
      (fun _ => ProbeOutcome.err) (by norm_num)

/-- C7: for valid input ports the returned mapping has pairwise distinct
keys and its key set is exactly the set of input ports — duplicates
collapse. -/
theorem checkMultiplePorts_distinct_keys (ports : List Int) (host : String)
    (probe : Nat → ProbeOutcome)
    (hv : ∀ p ∈ ports, 1 ≤ p ∧ p ≤ 65535) :
    ∃ m, (checkMultiplePorts true ports host probe).result = .ok m ∧
      (m.map Prod.fst).Nodup ∧
      (∀ p, p ∈ m.map Prod.fst ↔ p ∈ ports) := by
  refine ⟨(runChecks true host probe ports 0).foldl
    (fun m c => mapSet m c.1.1 c.1.2) [], ?_, ?_, ?_⟩
  · rw [checkMultiplePorts, firstValidationError_none ports hv]
  · exact foldl_mapSet_nodup _ [] (by simp)
  · intro p
    rw [foldl_mapSet_mem, runChecks_keys true host probe ports 0]
    simp

/-- Witness for C7 at `[3000, 3000, 4000]`: exactly the two keys 3000 and
4000. -/
theorem checkMultiplePorts_distinct_keys_witness :
    (∀ p ∈ [(3000 : Int), 3000, 4000], 1 ≤ p ∧ p ≤ 65535) ∧
    ∃ m, (checkMultiplePorts true [3000, 3000, 4000] "localhost"
        (fun _ => .ok true)).result = .ok m ∧
      (m.map Prod.fst).Nodup ∧
      (∀ p, p ∈ m.map Prod.fst ↔ p ∈ [(3000 : Int), 3000, 4000]) := by
  refine ⟨by norm_num, ?_⟩
  exact checkMultiplePorts_distinct_keys [3000, 3000, 4000] "localhost"
    (fun _ => .ok true) (by norm_num)


theorem foldr_probed_nil (ports : List Int) :
    ((ports.map (fun p => ((p, false), ([] : List Int)))).foldr
      (fun c acc => c.2 ++ acc) []) = ([] : List Int) := by
  induction ports with
  | nil => rfl
  | cons q rest ih => simpa using ih

/-- C1 as stated is false: outside Node.js, `findAvailablePort` does not
fail with the environment error — the loop swallows the per-iteration
environment errors and fails with an exhaustion error instead. -/
theorem notNode_environment_counterexample :
    (findAvailablePort false
        { startPort := 3000, endPort := 3001, maxTries := 2 }
        (fun _ => .ok false)).result =
      .error (.noAvailablePort 3000 3001 2 "localhost") ∧
    (findAvailablePort false
        { startPort := 3000, endPort := 3001, maxTries := 2 }
        (fun _ => .ok false)).result ≠ .error .environment := by
  have h : (findAvailablePort false
      { startPort := 3000, endPort := 3001, maxTries := 2 }
      (fun _ => ProbeOutcome.ok false)).result =
        .error (.noAvailablePort 3000 3001 2 "localhost") := by
    simp [findAvailablePort, findLoop, isPortAvailable, isPortInUse,
      assertNodeEnvironment, validatePort, Except.map]
  exact ⟨h, by rw [h]; simp⟩

/-- C1 amended: outside Node.js no network probe is ever attempted, and
`isPortInUse`/`isPortAvailable` fail immediately with the distinct
environment error; but the three derived operations swallow the
per-iteration environment errors: `findAvailablePort` fails with an
exhaustion error, `checkMultiplePorts` resolves with every port recorded
unavailable, and `waitForPort` fails with a timeout error. -/
theorem portOps_notNode (host : String) :
    (∀ (port : Int) (o : ProbeOutcome),
      isPortInUse false port host o = ⟨.error .environment, []⟩) ∧
    (∀ (port : Int) (o : ProbeOutcome),
      isPortAvailable false port host o = ⟨.error .environment, []⟩) ∧
    (∀ (opts : FindPortOptions) (probe : Int → ProbeOutcome),
      1 ≤ opts.startPort → opts.startPort ≤ opts.endPort →
      opts.endPort ≤ 65535 →
      findAvailablePort false opts probe =
        ⟨.error (.noAvailablePort opts.startPort opts.endPort
          (max 0 (min opts.maxTries (opts.endPort + 1 - opts.startPort)))
          opts.host), []⟩) ∧
    (∀ (ports : List Int) (probe : Nat → ProbeOutcome),
      (∀ p ∈ ports, 1 ≤ p ∧ p ≤ 65535) →
      ∃ m, checkMultiplePorts false ports host probe = ⟨.ok m, []⟩ ∧
        ∀ p ∈ ports, mapLookup m p = some false) ∧
    (∀ (port : Int) (target : TargetState) (opts : WaitForPortOptions)
        (trace : Nat → ProbeOutcome × Int) (fuel : Nat) (res : WaitOutcome),
      1 ≤ port → port ≤ 65535 →
      waitForPort false port target opts trace fuel = some res →
      res.result = .error (.timeout port target opts.overallTimeout opts.host) ∧
        res.probes = 0) := by
  refine ⟨fun port o => isPortInUse_notNode port host o,
    fun port o => isPortAvailable_notNode port host o, ?_, ?_, ?_⟩
  · intro opts probe h1 h2 h3
    rw [findAvailablePort_eq_loop false opts probe h1 h2 h3]
    rw [findLoop_notNode probe opts.host opts.startPort opts.endPort
      opts.maxTries _ opts.startPort 0 rfl]
    simp only [sub_zero, zero_add]
  · intro ports probe hv
    refine ⟨(ports.map (fun p => ((p, false), ([] : List Int)))).foldl
      (fun m c => mapSet m c.1.1 c.1.2) [], ?_, ?_⟩
    · rw [checkMultiplePorts, firstValidationError_none ports hv,
        runChecks_notNode host probe ports 0]
      simp only [foldr_probed_nil]
    · intro p hp
      apply foldl_mapSet_false
      · intro c hc _
        simp only [List.mem_map] at hc
        obtain ⟨q, _, hq⟩ := hc
        rw [← hq]
      · refine Or.inl ?_
        simp only [List.map_map]
        simpa using hp
  · intro port target opts trace fuel res hv1 hv2 hres
    rw [waitForPort, validatePort_ok port hv1 hv2] at hres
    exact waitLoop_notNode port target opts.host opts.pollInterval
      opts.overallTimeout trace fuel 0 0 0 res hres

/-- Witness for the amended C1, instantiating each operation concretely
outside Node.js. -/
theorem portOps_notNode_witness :
    isPortInUse false 3000 "localhost" (.ok true) =
      ⟨.error .environment, []⟩ ∧
    isPortAvailable false 3000 "localhost" (.ok true) =
      ⟨.error .environment, []⟩ ∧
    ((1 : Int) ≤ 3000 ∧ (3000 : Int) ≤ 3001 ∧ (3001 : Int) ≤ 65535 ∧
      findAvailablePort false
        { startPort := 3000, endPort := 3001, maxTries := 2 }
        (fun _ => .ok false) =
        ⟨.error (.noAvailablePort 3000 3001
          (max 0 (min 2 ((3001 : Int) + 1 - 3000))) "localhost"), []⟩) ∧
    ((∀ p ∈ [(3000 : Int)], 1 ≤ p ∧ p ≤ 65535) ∧
      ∃ m, checkMultiplePorts false [3000] "localhost" (fun _ => .ok true) =
        ⟨.ok m, []⟩ ∧ ∀ p ∈ [(3000 : Int)], mapLookup m p = some false) ∧
    ((1 : Int) ≤ 3000 ∧ (3000 : Int) ≤ 65535 ∧
      waitForPort false 3000 .available
          { pollInterval := 50, overallTimeout := 100 }
          (fun _ => (.ok false, 10)) 3 =
        some ⟨.error (.timeout 3000 .available 100 "localhost"), 100, 0⟩ ∧
      ((⟨.error (.timeout 3000 .available 100 "localhost"), 100, 0⟩ :
          WaitOutcome).result =
        .error (.timeout 3000 .available 100 "localhost") ∧
        (⟨.error (.timeout 3000 .available 100 "localhost"), 100, 0⟩ :
          WaitOutcome).probes = 0)) := by
  refine ⟨(portOps_notNode "localhost").1 3000 (.ok true),
    (portOps_notNode "localhost").2.1 3000 (.ok true),
    ⟨by norm_num, by norm_num, by norm_num, ?_⟩,
    ⟨by norm_num, ?_⟩, ⟨by norm_num, by norm_num, rfl, ?_⟩⟩
  · exact (portOps_notNode "localhost").2.2.1
      { startPort := 3000, endPort := 3001, maxTries := 2 }
      (fun _ => .ok false) (by norm_num) (by norm_num) (by norm_num)
  · exact (portOps_notNode "localhost").2.2.2.1 [3000]
      (fun _ => .ok true) (by norm_num)
  · exact (portOps_notNode "localhost").2.2.2.2 3000 .available
      { pollInterval := 50, overallTimeout := 100 }
      (fun _ => (.ok false, 10)) 3
      ⟨.error (.timeout 3000 .available 100 "localhost"), 100, 0⟩
      (by norm_num) (by norm_num) rfl


/-- C2 as stated is false: a non-positive `maxTries` is not rejected with a
validation error — `findAvailablePort` runs zero iterations and fails with
an exhaustion error reporting zero attempts, even though every port of the
range is free. -/
theorem counters_not_validated_counterexample :
    (findAvailablePort true
        { startPort := 3000, endPort := 3010, maxTries := 0 }
        (fun _ => .ok false)).result =
      .error (.noAvailablePort 3000 3010 0 "localhost") ∧
    (findAvailablePort true
        { startPort := 3000, endPort := 3010, maxTries := 0 }
        (fun _ => .ok false)).probed = [] ∧
    ∀ p, (findAvailablePort true
        { startPort := 3000, endPort := 3010, maxTries := 0 }
        (fun _ => .ok false)).result ≠ .error (.invalidPort p) := by
  have h : (findAvailablePort true
      { startPort := 3000, endPort := 3010, maxTries := 0 }
      (fun _ => ProbeOutcome.ok false)) =
        ⟨.error (.noAvailablePort 3000 3010 0 "localhost"), []⟩ := by
    rw [findAvailablePort_eq_loop true _ _ (by norm_num) (by norm_num)
      (by norm_num), findLoop, dif_neg (by norm_num)]
  rw [h]
  refine ⟨rfl, rfl, ?_⟩
  intro p
  simp

/-- C2 amended: the out-of-range-port and start-greater-than-end validations
are performed synchronously, before any probe, by every public operation;
the counters (`maxTries`, `pollInterval`, `overallTimeout`, `timeout`) are
not validated at all (see the counterexample: a non-positive `maxTries`
produces an exhaustion error, not a validation error). -/
theorem validation_before_probe :
    (∀ (port : Int) (host : String) (o : ProbeOutcome),
      ¬(1 ≤ port ∧ port ≤ 65535) →
      isPortInUse true port host o = ⟨.error (.invalidPort port), []⟩) ∧
    (∀ (port : Int) (host : String) (o : ProbeOutcome),
      ¬(1 ≤ port ∧ port ≤ 65535) →
      isPortAvailable true port host o = ⟨.error (.invalidPort port), []⟩) ∧
    (∀ (isNode : Bool) (opts : FindPortOptions) (probe : Int → ProbeOutcome),
      ¬(1 ≤ opts.startPort ∧ opts.startPort ≤ 65535) →
      findAvailablePort isNode opts probe =
        ⟨.error (.invalidPort opts.startPort), []⟩) ∧
    (∀ (isNode : Bool) (opts : FindPortOptions) (probe : Int → ProbeOutcome),
      (1 ≤ opts.startPort ∧ opts.startPort ≤ 65535) →
      ¬(1 ≤ opts.endPort ∧ opts.endPort ≤ 65535) →
      findAvailablePort isNode opts probe =
        ⟨.error (.invalidPort opts.endPort), []⟩) ∧
    (∀ (isNode : Bool) (opts : FindPortOptions) (probe : Int → ProbeOutcome),
      (1 ≤ opts.startPort ∧ opts.startPort ≤ 65535) →
      (1 ≤ opts.endPort ∧ opts.endPort ≤ 65535) →
      opts.startPort > opts.endPort →
      findAvailablePort isNode opts probe =
        ⟨.error (.startGreaterThanEnd opts.startPort opts.endPort), []⟩) ∧
    (∀ (isNode : Bool) (ports : List Int) (host : String)
        (probe : Nat → ProbeOutcome) (p : Int),
      p ∈ ports → ¬(1 ≤ p ∧ p ≤ 65535) →
      ∃ q, ¬(1 ≤ q ∧ q ≤ 65535) ∧ q ∈ ports ∧
        checkMultiplePorts isNode ports host probe =
          ⟨.error (.invalidPort q), []⟩) ∧
    (∀ (isNode : Bool) (port : Int) (target : TargetState)
        (opts : WaitForPortOptions) (trace : Nat → ProbeOutcome × Int)
        (fuel : Nat),
      ¬(1 ≤ port ∧ port ≤ 65535) →
      waitForPort isNode port target opts trace fuel =
        some ⟨.error (.invalidPort port), 0, 0⟩) := by
  refine ⟨?_, ?_, ?_, ?_, ?_, ?_, ?_⟩
  · intro port host o h
    simp [isPortInUse, assertNodeEnvironment, validatePort_bad port h]
  · intro port host o h
    simp [isPortAvailable, isPortInUse, assertNodeEnvironment,
      validatePort_bad port h, Except.map]
  · intro isNode opts probe h
    rw [findAvailablePort, validatePort_bad opts.startPort h]
  · intro isNode opts probe h1 h2
    rw [findAvailablePort, validatePort_ok opts.startPort h1.1 h1.2,
      validatePort_bad opts.endPort h2]
  · intro isNode opts probe h1 h2 h3
    rw [findAvailablePort, validatePort_ok opts.startPort h1.1 h1.2,
      validatePort_ok opts.endPort h2.1 h2.2, if_pos h3]
  · intro isNode ports host probe p hp hbad
    obtain ⟨q, hq1, hq2, hq3⟩ := firstValidationError_some ports p hp hbad
    refine ⟨q, hq1, hq2, ?_⟩
    rw [checkMultiplePorts, hq3]
  · intro isNode port target opts trace fuel h
    rw [waitForPort, validatePort_bad port h]

/-- Witness for the amended C2, instantiating every validation clause at a
concrete malformed input. -/
theorem validation_before_probe_witness :
    (¬((1 : Int) ≤ 0 ∧ (0 : Int) ≤ 65535) ∧
      isPortInUse true 0 "localhost" (.ok true) =
        ⟨.error (.invalidPort 0), []⟩) ∧
    (¬((1 : Int) ≤ 70000 ∧ (70000 : Int) ≤ 65535) ∧
      isPortAvailable true 70000 "localhost" (.ok true) =
        ⟨.error (.invalidPort 70000), []⟩) ∧
    (¬((1 : Int) ≤ 0 ∧ (0 : Int) ≤ 65535) ∧
      findAvailablePort true { startPort := 0 } (fun _ => .ok false) =
        ⟨.error (.invalidPort 0), []⟩) ∧
    (((1 : Int) ≤ 3000 ∧ (3000 : Int) ≤ 65535) ∧
      ¬((1 : Int) ≤ 70000 ∧ (70000 : Int) ≤ 65535) ∧
      findAvailablePort true { startPort := 3000, endPort := 70000 }
          (fun _ => .ok false) =
        ⟨.error (.invalidPort 70000), []⟩) ∧
    (((1 : Int) ≤ 100 ∧ (100 : Int) ≤ 65535) ∧
      ((1 : Int) ≤ 50 ∧ (50 : Int) ≤ 65535) ∧ (100 : Int) > 50 ∧
      findAvailablePort true { startPort := 100, endPort := 50 }
          (fun _ => .ok false) =
        ⟨.error (.startGreaterThanEnd 100 50), []⟩) ∧
    ((70000 : Int) ∈ [(70000 : Int)] ∧
      ¬((1 : Int) ≤ 70000 ∧ (70000 : Int) ≤ 65535) ∧
      (∃ q, ¬((1 : Int) ≤ q ∧ q ≤ 65535) ∧ q ∈ [(70000 : Int)] ∧
        checkMultiplePorts true [70000] "localhost" (fun _ => .ok true) =
          ⟨.error (.invalidPort q), []⟩)) ∧
    (¬((1 : Int) ≤ 0 ∧ (0 : Int) ≤ 65535) ∧
      waitForPort true 0 .available {} (fun _ => (.ok true, 10)) 5 =
        some ⟨.error (.invalidPort 0), 0, 0⟩) := by
  refine ⟨⟨by norm_num, ?_⟩, ⟨by norm_num, ?_⟩, ⟨by norm_num, ?_⟩,
    ⟨by norm_num, by norm_num, ?_⟩, ⟨by norm_num, by norm_num, by norm_num, ?_⟩,
    ⟨by norm_num, by norm_num, ?_⟩, ⟨by norm_num, ?_⟩⟩
  · exact validation_before_probe.1 0 "localhost" (.ok true) (by norm_num)
  · exact validation_before_probe.2.1 70000 "localhost" (.ok true)
      (by norm_num)
  · exact validation_before_probe.2.2.1 true { startPort := 0 }
      (fun _ => .ok false) (by norm_num)
  · exact validation_before_probe.2.2.2.1 true
      { startPort := 3000, endPort := 70000 } (fun _ => .ok false)
      (by norm_num) (by norm_num)
  · exact validation_before_probe.2.2.2.2.1 true
      { startPort := 100, endPort := 50 } (fun _ => .ok false)
      (by norm_num) (by norm_num) (by norm_num)
  · exact validation_before_probe.2.2.2.2.2.1 true [70000] "localhost"
      (fun _ => .ok true) 70000 (by norm_num) (by norm_num)
  · exact validation_before_probe.2.2.2.2.2.2 true 0 .available {}
      (fun _ => (.ok true, 10)) 5 (by norm_num)
end Network
